import Mathlib

/-!
Verification of the overkiz-client core logic

A shallow embedding of the state-bearing parts of the `overkiz-client`
library (an Overkiz/Somfy home-automation API client written in
TypeScript) together with proofs about them:

* the device state synchronizer (`src/models/Device.ts`,
  `Device.updateStates` and its 100 ms debounce timer);
* the device topology builder (`src/Client.ts`,
  `OverkizClient.attachDevices`, with `Device.isMainDevice`,
  `Device.isSensorOf` and `Device.addSensor`);
* the execution pool and its admission guard (`src/Client.ts`,
  `OverkizClient.execute`), including the JavaScript `Array` length
  semantics the guard depends on;
* the authentication lockdown state machine (`src/ApiClient.ts`,
  `CloudApiClient.authenticate`);
* the 401 re-authentication retry logic (`src/ApiClient.ts`,
  `ApiClient.request`);
* the execution event correlation (`Execution.onStateUpdate`), the
  two-minute execution fallback timer, and the event-fetch error
  handling of `OverkizClient.fetchEvents`.

Timers (`setTimeout` / `clearTimeout`) are modelled by explicit timed
occurrences folded over in chronological order; JavaScript string values
and truthiness are modelled explicitly where a branch depends on them.
-/

namespace Overkiz

/-! ## Device states (src/models/Device.ts)

A `State` is a `{ name, type, value }` record.  The JavaScript `value`
field is `any` and is only ever compared with `!==` by the code under
study, so it is modelled as a `String`. -/

structure State where
  name : String
  type : Nat
  value : String
deriving DecidableEq, Repr

/-- `Device.getState(stateName)`: the first state in the device's `states`
array whose `name` matches, or `null`. -/
def getStateIn (states : List State) (name : String) : Option State :=
  states.find? (fun st => st.name == name)

/-- The mutation `state.value = newState.value` performed by
`Device.updateStates` on the state object returned by `getState`: only the
first state with the given name is written. -/
def setStateValue : List State → String → String → List State
  | [], _, _ => []
  | st :: rest, name, value =>
    if st.name == name then { st with value := value } :: rest
    else st :: setStateValue rest name value

/-- JavaScript `Map.set` on an insertion-ordered association list: an
existing key keeps its position and gets the new value, a new key is
appended (keys are unique, so replacing the first binding is `Map.set`). -/
def mapSet : List (String × State) → String → State → List (String × State)
  | [], k, v => [(k, v)]
  | p :: rest, k, v =>
    if p.1 == k then (k, v) :: rest else p :: mapSet rest k v

/-- JavaScript `Map.get`. -/
def mapGet (m : List (String × State)) (k : String) : Option State :=
  (m.find? (fun p => p.1 == k)).map (·.2)

/-- The mutable per-device data touched by `Device.updateStates`: the
`states` array and the `pendingUpdate` map. -/
structure DeviceSync where
  states : List State
  pending : List (String × State)
deriving DecidableEq, Repr

/-- The body of the `for (const newState of states)` loop of
`Device.updateStates`, for one incoming state:

* if a state of that name exists, its stored `type` is checked against 10
  and 11 and its stored value against the incoming one; on a genuine
  change the stored value is overwritten and the incoming state is put
  into `pendingUpdate` under its name;
* if no state of that name exists, the incoming state is pushed onto
  `states` and put into `pendingUpdate` unconditionally. -/
def applyState (d : DeviceSync) (ns : State) : DeviceSync :=
  match getStateIn d.states ns.name with
  | some st =>
    if st.type ≠ 10 ∧ st.type ≠ 11 ∧ st.value ≠ ns.value then
      { states := setStateValue d.states ns.name ns.value
        pending := mapSet d.pending ns.name ns }
    else d
  | none =>
    { states := d.states ++ [ns]
      pending := mapSet d.pending ns.name ns }

/-- One call to `Device.updateStates(states)` (its loop body; the debounce
timer bookkeeping is modelled separately). -/
def updateStates (d : DeviceSync) (states : List State) : DeviceSync :=
  states.foldl applyState d

/-- Several `updateStates` calls all falling inside one debounce window:
each call cancels the previous pending timer, so their loop bodies
accumulate into the same `pendingUpdate` map and only the last timer
fires. -/
def burst (d : DeviceSync) (batches : List (List State)) : DeviceSync :=
  batches.foldl updateStates d

/-- The debounce-timer callback of `Device.updateStates`: if
`pendingUpdate` is nonempty, one `'states'` notification is emitted with
`Array.from(pendingUpdate.values())` and the map is reset; otherwise
nothing is emitted. -/
def flush (d : DeviceSync) : Option (List State) × DeviceSync :=
  if d.pending.isEmpty then (none, d)
  else (some (d.pending.map (·.2)), { d with pending := [] })

/-! ### Association-list and state-array lemmas -/

theorem mapGet_mapSet_self (m : List (String × State)) (k : String) (v : State) :
    mapGet (mapSet m k v) k = some v := by
  induction m with
  | nil => simp [mapSet, mapGet]
  | cons p rest ih =>
    cases hp : (p.1 == k) with
    | true => simp [mapSet, hp, mapGet]
    | false => simpa [mapSet, hp, mapGet] using ih

theorem mapGet_mapSet_ne (m : List (String × State)) (k k' : String) (v : State)
    (h : k' ≠ k) : mapGet (mapSet m k v) k' = mapGet m k' := by
  have hkk : (k == k') = false := beq_eq_false_iff_ne.mpr fun he => h he.symm
  induction m with
  | nil => simp [mapSet, mapGet, hkk]
  | cons p rest ih =>
    cases hp : (p.1 == k) with
    | true =>
      have hp' : p.1 = k := eq_of_beq hp
      simp [mapSet, hp, mapGet, hkk, hp']
    | false =>
      cases hq : (p.1 == k') with
      | true => simp [mapSet, hp, mapGet, hq]
      | false => simpa [mapSet, hp, mapGet, hq] using ih

theorem getStateIn_setStateValue_self (states : List State) (k val : String) :
    getStateIn (setStateValue states k val) k =
      (getStateIn states k).map (fun st => { st with value := val }) := by
  induction states with
  | nil => rfl
  | cons st rest ih =>
    cases hp : (st.name == k) with
    | true => simp [setStateValue, hp, getStateIn]
    | false => simpa [setStateValue, hp, getStateIn] using ih

theorem getStateIn_setStateValue_ne (states : List State) (k k' val : String)
    (h : k' ≠ k) :
    getStateIn (setStateValue states k val) k' = getStateIn states k' := by
  induction states with
  | nil => rfl
  | cons st rest ih =>
    cases hp : (st.name == k) with
    | true =>
      have hp' : st.name = k := eq_of_beq hp
      have hne : (st.name == k') = false :=
        beq_eq_false_iff_ne.mpr fun hb => h (hb.symm.trans hp')
      simp [setStateValue, hp, getStateIn, hne]
    | false =>
      cases hq : (st.name == k') with
      | true => simp [setStateValue, hp, getStateIn, hq]
      | false => simpa [setStateValue, hp, getStateIn, hq] using ih

theorem getStateIn_append_of_none (l : List State) (ns : State) (k : String)
    (h : getStateIn l k = none) :
    getStateIn (l ++ [ns]) k = if ns.name == k then some ns else none := by
  induction l with
  | nil =>
    cases hn : (ns.name == k) with
    | true => simp [getStateIn, hn]
    | false => simp [getStateIn, hn]
  | cons st rest ih =>
    cases hp : (st.name == k) with
    | true => simp [getStateIn, hp] at h
    | false =>
      simp only [getStateIn] at h
      rw [List.find?_cons_of_neg _ (by simp [hp])] at h
      simp only [List.cons_append, getStateIn]
      rw [List.find?_cons_of_neg _ (by simp [hp])]
      exact ih h

theorem getStateIn_append_of_some (l : List State) (ns st : State) (k : String)
    (h : getStateIn l k = some st) : getStateIn (l ++ [ns]) k = some st := by
  induction l with
  | nil => exact Option.noConfusion h
  | cons st' rest ih =>
    cases hp : (st'.name == k) with
    | true =>
      simp only [getStateIn] at h
      rw [List.find?_cons_of_pos _ (by simp [hp])] at h
      simp only [List.cons_append, getStateIn]
      rw [List.find?_cons_of_pos _ (by simp [hp])]
      exact h
    | false =>
      simp only [getStateIn] at h
      rw [List.find?_cons_of_neg _ (by simp [hp])] at h
      simp only [List.cons_append, getStateIn]
      rw [List.find?_cons_of_neg _ (by simp [hp])]
      exact ih h

/-! ### Case lemmas for `applyState` -/

theorem applyState_change_states (d : DeviceSync) (ns st : State)
    (hg : getStateIn d.states ns.name = some st)
    (hc : st.type ≠ 10 ∧ st.type ≠ 11 ∧ st.value ≠ ns.value) :
    (applyState d ns).states = setStateValue d.states ns.name ns.value := by
  simp only [applyState, hg, if_pos hc]

theorem applyState_change_pending (d : DeviceSync) (ns st : State)
    (hg : getStateIn d.states ns.name = some st)
    (hc : st.type ≠ 10 ∧ st.type ≠ 11 ∧ st.value ≠ ns.value) :
    (applyState d ns).pending = mapSet d.pending ns.name ns := by
  simp only [applyState, hg, if_pos hc]

theorem applyState_nochange (d : DeviceSync) (ns st : State)
    (hg : getStateIn d.states ns.name = some st)
    (hc : ¬(st.type ≠ 10 ∧ st.type ≠ 11 ∧ st.value ≠ ns.value)) :
    applyState d ns = d := by
  simp only [applyState, hg, if_neg hc]

theorem applyState_new_states (d : DeviceSync) (ns : State)
    (hg : getStateIn d.states ns.name = none) :
    (applyState d ns).states = d.states ++ [ns] := by
  simp only [applyState, hg]

theorem applyState_new_pending (d : DeviceSync) (ns : State)
    (hg : getStateIn d.states ns.name = none) :
    (applyState d ns).pending = mapSet d.pending ns.name ns := by
  simp only [applyState, hg]

theorem updateStates_cons (d : DeviceSync) (ns : State) (rest : List State) :
    updateStates d (ns :: rest) = updateStates (applyState d ns) rest := rfl

theorem burst_cons (d : DeviceSync) (b : List State) (rest : List (List State)) :
    burst d (b :: rest) = burst (updateStates d b) rest := rfl

theorem burst_eq_updateStates_flatten (d : DeviceSync) (bs : List (List State)) :
    burst d bs = updateStates d bs.flatten := by
  induction bs generalizing d with
  | nil => rfl
  | cons b rest ih =>
    rw [burst_cons, ih]
    simp only [List.flatten_cons, updateStates, List.foldl_append]

/-! ### The pending-batch invariant for C4 -/

/-- Every pending entry is keyed by its own state name and carries exactly
the value currently stored for that name on the device: later writes in a
window overwrite earlier ones, so the batch holds only final values. -/
def PendingAccurate (d : DeviceSync) : Prop :=
  ∀ k s, mapGet d.pending k = some s →
    s.name = k ∧ (getStateIn d.states k).map State.value = some s.value

theorem applyState_pendingAccurate (d : DeviceSync) (ns : State)
    (h : PendingAccurate d) : PendingAccurate (applyState d ns) := by
  cases hg : getStateIn d.states ns.name with
  | some st =>
    by_cases hc : st.type ≠ 10 ∧ st.type ≠ 11 ∧ st.value ≠ ns.value
    · intro k s hs
      rw [applyState_change_pending d ns st hg hc] at hs
      rw [applyState_change_states d ns st hg hc]
      by_cases hk : k = ns.name
      · subst hk
        rw [mapGet_mapSet_self, Option.some.injEq] at hs
        subst hs
        refine ⟨rfl, ?_⟩
        rw [getStateIn_setStateValue_self, hg]
        rfl
      · rw [mapGet_mapSet_ne _ _ _ _ hk] at hs
        obtain ⟨h1, h2⟩ := h k s hs
        exact ⟨h1, by rw [getStateIn_setStateValue_ne _ _ _ _ hk]; exact h2⟩
    · rw [applyState_nochange d ns st hg hc]
      exact h
  | none =>
    intro k s hs
    rw [applyState_new_pending d ns hg] at hs
    rw [applyState_new_states d ns hg]
    by_cases hk : k = ns.name
    · subst hk
      rw [mapGet_mapSet_self, Option.some.injEq] at hs
      subst hs
      refine ⟨rfl, ?_⟩
      rw [getStateIn_append_of_none _ _ _ hg, if_pos (by simp)]
      rfl
    · rw [mapGet_mapSet_ne _ _ _ _ hk] at hs
      obtain ⟨h1, h2⟩ := h k s hs
      refine ⟨h1, ?_⟩
      cases hg' : getStateIn d.states k with
      | none => rw [hg'] at h2; exact Option.noConfusion h2
      | some st' =>
        rw [getStateIn_append_of_some _ _ _ _ hg']
        rw [hg'] at h2
        exact h2

theorem updateStates_pendingAccurate (d : DeviceSync) (l : List State)
    (h : PendingAccurate d) : PendingAccurate (updateStates d l) := by
  induction l generalizing d with
  | nil => exact h
  | cons ns rest ih =>
    rw [updateStates_cons]
    exact ih _ (applyState_pendingAccurate d ns h)

theorem burst_pendingAccurate (d : DeviceSync) (bs : List (List State))
    (h : PendingAccurate d) : PendingAccurate (burst d bs) := by
  rw [burst_eq_updateStates_flatten]
  exact updateStates_pendingAccurate _ _ h

/-! ### Untouched names stay out of the batch -/

theorem applyState_pending_untouched (d : DeviceSync) (ns : State) (k : String)
    (h : ns.name ≠ k) :
    mapGet (applyState d ns).pending k = mapGet d.pending k := by
  have h' : k ≠ ns.name := fun he => h he.symm
  cases hg : getStateIn d.states ns.name with
  | some st =>
    by_cases hc : st.type ≠ 10 ∧ st.type ≠ 11 ∧ st.value ≠ ns.value
    · rw [applyState_change_pending d ns st hg hc]
      exact mapGet_mapSet_ne _ _ _ _ h'
    · rw [applyState_nochange d ns st hg hc]
  | none =>
    rw [applyState_new_pending d ns hg]
    exact mapGet_mapSet_ne _ _ _ _ h'

theorem updateStates_pending_untouched (d : DeviceSync) (l : List State)
    (k : String) (h : ∀ ns ∈ l, ns.name ≠ k) :
    mapGet (updateStates d l).pending k = mapGet d.pending k := by
  induction l generalizing d with
  | nil => rfl
  | cons ns rest ih =>
    rw [updateStates_cons]
    rw [ih _ fun x hx => h x (List.mem_cons_of_mem _ hx)]
    exact applyState_pending_untouched d ns k (h ns (List.mem_cons_self _ _))

/-! ### No-op update sequences -/

/-- An incoming state is a no-op for the current device data when a state
of that name exists and already holds the incoming value. -/
def IsNoopFor (d : DeviceSync) (ns : State) : Prop :=
  (getStateIn d.states ns.name).map State.value = some ns.value

/-- Every update in the sequence is a no-op at the moment it is processed. -/
def AllNoop : DeviceSync → List State → Prop
  | _, [] => True
  | d, ns :: rest => IsNoopFor d ns ∧ AllNoop (applyState d ns) rest

theorem applyState_eq_of_noop (d : DeviceSync) (ns : State)
    (h : IsNoopFor d ns) : applyState d ns = d := by
  unfold IsNoopFor at h
  cases hg : getStateIn d.states ns.name with
  | none => rw [hg] at h; exact Option.noConfusion h
  | some st =>
    rw [hg] at h
    have hv : st.value = ns.value := by simpa using h
    exact applyState_nochange d ns st hg (by simp [hv])

theorem updateStates_eq_of_allNoop (d : DeviceSync) (l : List State)
    (h : AllNoop d l) : updateStates d l = d := by
  induction l generalizing d with
  | nil => rfl
  | cons ns rest ih =>
    obtain ⟨h1, h2⟩ := h
    have he := applyState_eq_of_noop d ns h1
    rw [updateStates_cons, he]
    exact ih d (he ▸ h2)

/-! ### Claims C4, C8 -/

/-- Claim C4: for a burst of `updateStates` calls all falling inside one
debounce window (so only the final timer survives and fires, giving a
single flush for the whole burst), (1) that one flush emits a `'states'`
notification exactly when some update actually changed the device, i.e.
when the pending batch is nonempty; (2) each notified entry is keyed by
its state name and carries exactly the final value now stored on the
device — later values in the window overwrote earlier ones; (3) names
never updated in the window do not appear in the notification; (4) a
burst in which every incoming pair equals the value existing at the
moment it is processed emits nothing at all. -/
theorem C4_debounce_coalesces (d : DeviceSync) (bs : List (List State))
    (hp : d.pending = []) :
    ((flush (burst d bs)).1 = none ↔ (burst d bs).pending = []) ∧
    (∀ k s, mapGet (burst d bs).pending k = some s →
      s.name = k ∧
        (getStateIn (burst d bs).states k).map State.value = some s.value) ∧
    (∀ k, (∀ ns ∈ bs.flatten, ns.name ≠ k) →
      mapGet (burst d bs).pending k = none) ∧
    (AllNoop d bs.flatten → (flush (burst d bs)).1 = none) := by
  refine ⟨?_, ?_, ?_, ?_⟩
  · cases he : (burst d bs).pending with
    | nil => simp [flush, he]
    | cons p rest => simp [flush, he]
  · exact burst_pendingAccurate d bs
      (by intro k s hs; rw [hp] at hs; exact Option.noConfusion hs)
  · intro k hk
    rw [burst_eq_updateStates_flatten,
      updateStates_pending_untouched _ _ _ hk, hp]
    rfl
  · intro hno
    rw [burst_eq_updateStates_flatten, updateStates_eq_of_allNoop _ _ hno]
    simp [flush, hp]

/-- Witness for C4: a device holding `x = "5"`, updated to `x = "7"` and
then given a fresh state `y = "1"` in the same window. -/
theorem C4_debounce_coalesces_witness :
    ((flush (burst ⟨[⟨"x", 1, "5"⟩], []⟩ [[⟨"x", 1, "7"⟩], [⟨"y", 2, "1"⟩]])).1 = none ↔
      (burst ⟨[⟨"x", 1, "5"⟩], []⟩ [[⟨"x", 1, "7"⟩], [⟨"y", 2, "1"⟩]]).pending = []) ∧
    (∀ k s,
      mapGet (burst ⟨[⟨"x", 1, "5"⟩], []⟩ [[⟨"x", 1, "7"⟩], [⟨"y", 2, "1"⟩]]).pending k
          = some s →
      s.name = k ∧
        (getStateIn (burst ⟨[⟨"x", 1, "5"⟩], []⟩
            [[⟨"x", 1, "7"⟩], [⟨"y", 2, "1"⟩]]).states k).map State.value
          = some s.value) ∧
    (∀ k, (∀ ns ∈ ([[⟨"x", 1, "7"⟩], [⟨"y", 2, "1"⟩]] :
        List (List State)).flatten, ns.name ≠ k) →
      mapGet (burst ⟨[⟨"x", 1, "5"⟩], []⟩ [[⟨"x", 1, "7"⟩], [⟨"y", 2, "1"⟩]]).pending k
        = none) ∧
    (AllNoop ⟨[⟨"x", 1, "5"⟩], []⟩ ([[⟨"x", 1, "7"⟩], [⟨"y", 2, "1"⟩]] :
        List (List State)).flatten →
      (flush (burst ⟨[⟨"x", 1, "5"⟩], []⟩ [[⟨"x", 1, "7"⟩], [⟨"y", 2, "1"⟩]])).1 = none) :=
  C4_debounce_coalesces ⟨[⟨"x", 1, "5"⟩], []⟩ [[⟨"x", 1, "7"⟩], [⟨"y", 2, "1"⟩]] rfl

/-- Claim C8 (counterexample): an incoming pair of structured type (tag 10)
whose name has no existing state on the device is *not* excluded: it is
pushed into `states`, recorded in the pending batch, and appears in the
raised `'states'` notification.  `Device.updateStates` only consults a
type tag — and then the *stored* state's tag, not the incoming one — in
the branch where a state of that name already exists, so the claim's
"regardless of whether a state of that name already exists" fails. -/
theorem C8_counterexample :
    (flush (updateStates ⟨[], []⟩ [⟨"core:Structured", 10, "v"⟩])).1 =
      some [⟨"core:Structured", 10, "v"⟩] := by
  decide

/-- Claim C8 (amended): an incoming pair whose name matches an existing
state whose *stored* type tag is 10 or 11 is fully ignored: the device
data (both the state array and the pending notification batch) is left
unchanged, so the pair never surfaces in a `'states'` notification.  A
pair whose name has no existing state is added and notified regardless of
its type tag (see the counterexample). -/
theorem C8_structured_types_ignored (d : DeviceSync) (ns st : State)
    (hg : getStateIn d.states ns.name = some st)
    (ht : st.type = 10 ∨ st.type = 11) :
    applyState d ns = d := by
  refine applyState_nochange d ns st hg ?_
  rcases ht with h | h <;> simp [h]

/-- Witness for the amended C8: a stored structured state `x` of type 10
receives a differing update, and nothing happens. -/
theorem C8_structured_types_ignored_witness :
    applyState ⟨[⟨"x", 10, "a"⟩], []⟩ ⟨"x", 10, "b"⟩ = ⟨[⟨"x", 10, "a"⟩], []⟩ :=
  C8_structured_types_ignored ⟨[⟨"x", 10, "a"⟩], []⟩ ⟨"x", 10, "b"⟩ ⟨"x", 10, "a"⟩
    (by decide) (Or.inl rfl)

/-! ### The debounce timer (C10) -/

/-- The debounce window of `Device.updateStates`, in milliseconds
(`setTimeout(..., 100)`). -/
def DEBOUNCE_MS : Nat := 100

/-- Times at which the debounce callback actually runs, given the times of
successive `updateStates` calls on one device: each call clears any
pending timer (`clearTimeout(this.pendingUpdateTimer)`) and schedules a
fresh one `DEBOUNCE_MS` later, so the timer set at `t₁` fires at
`t₁ + DEBOUNCE_MS` unless another call arrives strictly before that. -/
def debounceFireTimes : List Nat → List Nat
  | [] => []
  | [t] => [t + DEBOUNCE_MS]
  | t₁ :: t₂ :: rest =>
    (if t₂ < t₁ + DEBOUNCE_MS then [] else [t₁ + DEBOUNCE_MS]) ++
      debounceFireTimes (t₂ :: rest)

/-- Claim C10: when a stream of `updateStates` calls arrives with every
consecutive gap strictly below the 100 ms window, every timer but the
last is cancelled by the following call: the debounce callback (which
raises the coalesced `'states'` notification) runs exactly once, 100 ms
after the *most recent* call — the notification is postponed for as long
as the stream continues. -/
theorem C10_timer_restarts (ts : List Nat) (h : ts ≠ [])
    (hgaps : ts.Chain' (fun a b => b < a + DEBOUNCE_MS)) :
    debounceFireTimes ts = [ts.getLast h + DEBOUNCE_MS] := by
  induction ts with
  | nil => exact absurd rfl h
  | cons a rest ih =>
    cases rest with
    | nil => rfl
    | cons b rest' =>
      have hab : b < a + DEBOUNCE_MS := (List.chain'_cons.mp hgaps).1
      have htail := ih (by simp) (List.chain'_cons.mp hgaps).2
      simp only [debounceFireTimes, if_pos hab, List.nil_append, htail,
        List.getLast_cons_cons]

/-- Witness for C10: calls at 0 ms, 50 ms and 120 ms (gaps 50 and 70, both
below the window) produce a single callback at 220 ms. -/
theorem C10_timer_restarts_witness :
    debounceFireTimes [0, 50, 120] = [220] :=
  C10_timer_restarts [0, 50, 120] (by decide)
    (by norm_num [List.chain'_cons, DEBOUNCE_MS])

/-! ## Device topology builder (src/Client.ts, attachDevices)

A raw device record carries the fields `attachDevices`, `isMainDevice` and
`isSensorOf` actually read.  Devices are identified by their position in
the input list (the JavaScript code works with object identity; indexing
makes that explicit and tolerates duplicate URLs). -/

structure DeviceRec where
  deviceURL : String
  controllableName : String
  widgetName : String
  uiClass : String
deriving DecidableEq, Repr, Inhabited

/-- `parseInt` applied to the text after `#` in a `deviceURL`: the value
of the leading run of decimal digits, `none` for `NaN` (no digit). -/
def parseIntPrefix (cs : List Char) : Option Nat :=
  let ds := cs.takeWhile Char.isDigit
  if ds.isEmpty then none
  else some (ds.foldl (fun n c => n * 10 + (c.toNat - 48)) 0)

/-- The characters after the first `#` of a URL; `none` when `#` is
absent (`indexOf('#') === -1`). -/
def afterHash (s : String) : Option (List Char) :=
  match s.toList.dropWhile (fun c => c ≠ '#') with
  | [] => none
  | _ :: rest => some rest

/-- `Device.componentId`: 1 when the URL has no `#`, otherwise
`parseInt` of the suffix (`none` = `NaN`). -/
def componentId (r : DeviceRec) : Option Nat :=
  match afterHash r.deviceURL with
  | none => some 1
  | some t => parseIntPrefix t

/-- `Device.isMainDevice`: `componentId === 1` (`NaN === 1` is false). -/
def isMainDevice (r : DeviceRec) : Bool :=
  componentId r == some 1

/-- `Device.isSensorOf(device)`: the controllable-name rules, then the
widget-name rule; falling off the end of both `switch` statements returns
`undefined`, which is falsy. -/
def isSensorOf (r d : DeviceRec) : Bool :=
  if r.controllableName == "io:AtlanticPassAPCOutsideTemperatureSensor" then
    false
  else if r.controllableName == "io:AtlanticPassAPCZoneTemperatureSensor" then
    d.uiClass == "HeatingSystem"
  else if r.controllableName == "io:HeatingRelatedElectricalEnergyConsumptionSensor" then
    d.controllableName == "io:AtlanticPassAPCHeatPumpMainComponent"
  else if r.controllableName == "io:DHWRelatedElectricalEnergyConsumptionSensor" then
    d.controllableName == "io:AtlanticPassAPCDHWComponent"
  else if r.widgetName == "TemperatureSensor" then
    d.uiClass == "HeatingSystem"
  else false

/-- The record at index `i` of the input list. -/
def recAt (recs : List DeviceRec) (i : Nat) : DeviceRec :=
  recs.getD i default

/-- The mutable data of one `attachDevices` run, with devices named by
their index in the input list:

* `lastMain` / `last` — the `lastMainDevice` / `lastDevice` locals;
* `phys` — the indices pushed onto `physicalDevices`, in order;
* `sensorOwner` — the `addSensor` attachments `(sensor, owner)`, in order
  (`addSensor` also sets `sensor.parent = owner`);
* `standaloneParent` — the `device.parent = lastMainDevice` assignments
  made when a non-main device is promoted to a physical device. -/
structure TopoState where
  lastMain : Option Nat
  last : Option Nat
  phys : List Nat
  sensorOwner : List (Nat × Nat)
  standaloneParent : List (Nat × Option Nat)
deriving DecidableEq, Repr

def initTopo : TopoState := ⟨none, none, [], [], []⟩

/-- One iteration of the `devices.forEach` loop of `attachDevices` for the
device at index `i`. -/
def attachStep (recs : List DeviceRec) (s : TopoState) (i : Nat) : TopoState :=
  if isMainDevice (recAt recs i) then
    { s with lastMain := some i, last := some i, phys := s.phys ++ [i] }
  else
    let promote : TopoState :=
      { s with last := some i, phys := s.phys ++ [i]
               standaloneParent := s.standaloneParent ++ [(i, s.lastMain)] }
    let tryMain : TopoState :=
      match s.lastMain with
      | some m =>
        if isSensorOf (recAt recs i) (recAt recs m) then
          { s with sensorOwner := s.sensorOwner ++ [(i, m)] }
        else promote
      | none => promote
    match s.last with
    | some j =>
      if isSensorOf (recAt recs i) (recAt recs j) then
        { s with sensorOwner := s.sensorOwner ++ [(i, j)] }
      else tryMain
    | none => tryMain

/-- `OverkizClient.attachDevices`: fold the loop body over the whole
input list. -/
def attachDevices (recs : List DeviceRec) : TopoState :=
  (List.range recs.length).foldl (attachStep recs) initTopo

/-- The `parent` reference of device `i` after a run: set by `addSensor`
(owner) or by the promotion branch (the `lastMainDevice` at that time);
never set for main devices. -/
def parentOf (s : TopoState) (i : Nat) : Option Nat :=
  match s.sensorOwner.find? (fun p => p.1 == i) with
  | some p => some p.2
  | none =>
    match s.standaloneParent.find? (fun p => p.1 == i) with
    | some p => p.2
    | none => none

/-- The `sensors` array of device `j` after a run. -/
def sensorsOf (s : TopoState) (j : Nat) : List Nat :=
  (s.sensorOwner.filter (fun p => p.2 == j)).map (·.1)

def attachN (recs : List DeviceRec) : Nat → TopoState
  | 0 => initTopo
  | n + 1 => attachStep recs (attachN recs n) n

theorem attachDevices_eq_attachN (recs : List DeviceRec) :
    attachDevices recs = attachN recs recs.length := by
  suffices h : ∀ n, (List.range n).foldl (attachStep recs) initTopo = attachN recs n
    from h _
  intro n
  induction n with
  | zero => rfl
  | succ n ih => rw [List.range_succ, List.foldl_append, ih]; rfl

/-- The three possible outcomes of one loop iteration: a main device is
pushed as physical; a non-main device is attached as a sensor of the
current `lastDevice` or `lastMainDevice`; or a non-main device is
promoted to a physical device with `parent = lastMainDevice`. -/
theorem attachStep_cases (recs : List DeviceRec) (s : TopoState) (i : Nat) :
    (isMainDevice (recAt recs i) = true ∧
      attachStep recs s i =
        { s with lastMain := some i, last := some i, phys := s.phys ++ [i] }) ∨
    (isMainDevice (recAt recs i) = false ∧
      ∃ j, (s.last = some j ∨ s.lastMain = some j) ∧
        attachStep recs s i = { s with sensorOwner := s.sensorOwner ++ [(i, j)] }) ∨
    (isMainDevice (recAt recs i) = false ∧
      attachStep recs s i =
        { s with last := some i, phys := s.phys ++ [i]
                 standaloneParent := s.standaloneParent ++ [(i, s.lastMain)] }) := by
  cases hm : isMainDevice (recAt recs i) with
  | true => exact Or.inl ⟨rfl, by simp [attachStep, hm]⟩
  | false =>
    cases hl : s.last with
    | some j =>
      cases hs : isSensorOf (recAt recs i) (recAt recs j) with
      | true =>
        exact Or.inr (Or.inl ⟨rfl, j, Or.inl rfl, by simp [attachStep, hm, hl, hs]⟩)
      | false =>
        cases hlm : s.lastMain with
        | some m =>
          cases hsm : isSensorOf (recAt recs i) (recAt recs m) with
          | true =>
            exact Or.inr (Or.inl ⟨rfl, m, Or.inr rfl,
              by simp [attachStep, hm, hl, hs, hlm, hsm]⟩)
          | false =>
            exact Or.inr (Or.inr ⟨rfl, by simp [attachStep, hm, hl, hs, hlm, hsm]⟩)
        | none => exact Or.inr (Or.inr ⟨rfl, by simp [attachStep, hm, hl, hs, hlm]⟩)
    | none =>
      cases hlm : s.lastMain with
      | some m =>
        cases hsm : isSensorOf (recAt recs i) (recAt recs m) with
        | true =>
          exact Or.inr (Or.inl ⟨rfl, m, Or.inr rfl,
            by simp [attachStep, hm, hl, hlm, hsm]⟩)
        | false =>
          exact Or.inr (Or.inr ⟨rfl, by simp [attachStep, hm, hl, hlm, hsm]⟩)
      | none => exact Or.inr (Or.inr ⟨rfl, by simp [attachStep, hm, hl, hlm]⟩)

theorem perm_snoc_left (l₁ l₂ : List Nat) (a : Nat) :
    ((l₁ ++ [a]) ++ l₂).Perm ((l₁ ++ l₂) ++ [a]) := by
  rw [List.append_assoc, List.append_assoc]
  exact List.Perm.append_left _ List.perm_append_comm

/-- The inductive invariant of the `attachDevices` fold after the first
`n` devices have been processed. -/
structure TopoInv (recs : List DeviceRec) (n : Nat) (s : TopoState) : Prop where
  perm : (s.phys ++ s.sensorOwner.map Prod.fst).Perm (List.range n)
  ownerPhys : ∀ p ∈ s.sensorOwner, p.2 ∈ s.phys
  lastPhys : ∀ j, s.last = some j → j ∈ s.phys
  lastMainPhys : ∀ m, s.lastMain = some m → m ∈ s.phys
  sensorKeyNotMain : ∀ p ∈ s.sensorOwner,
    isMainDevice (recAt recs p.1) = false
  spKeyNotMain : ∀ p ∈ s.standaloneParent,
    isMainDevice (recAt recs p.1) = false

theorem topoInv_attachN (recs : List DeviceRec) :
    ∀ n, TopoInv recs n (attachN recs n) := by
  intro n
  induction n with
  | zero =>
    refine ⟨by simp [initTopo, attachN], ?_, ?_, ?_, ?_, ?_⟩ <;>
      simp [initTopo, attachN]
  | succ n ih =>
    rcases attachStep_cases recs (attachN recs n) n with
      ⟨hm, he⟩ | ⟨hm, j, hj, he⟩ | ⟨hm, he⟩
    · rw [attachN, he]
      refine ⟨?_, ?_, ?_, ?_, ?_, ?_⟩
      · rw [List.range_succ]
        exact (perm_snoc_left _ _ n).trans (ih.perm.append_right [n])
      · intro p hp
        exact List.mem_append_left _ (ih.ownerPhys p hp)
      · intro j hj
        cases hj
        exact List.mem_append_right _ (List.mem_singleton_self n)
      · intro m hm'
        cases hm'
        exact List.mem_append_right _ (List.mem_singleton_self n)
      · exact ih.sensorKeyNotMain
      · exact ih.spKeyNotMain
    · rw [attachN, he]
      refine ⟨?_, ?_, ?_, ?_, ?_, ?_⟩
      · have h1 : ((attachN recs n).sensorOwner ++ [(n, j)]).map Prod.fst
            = (attachN recs n).sensorOwner.map Prod.fst ++ [n] := by simp
        show ((attachN recs n).phys ++
          ((attachN recs n).sensorOwner ++ [(n, j)]).map Prod.fst).Perm _
        rw [h1, ← List.append_assoc, List.range_succ]
        exact ih.perm.append_right [n]
      · intro p hp
        rcases List.mem_append.mp hp with hp | hp
        · exact ih.ownerPhys p hp
        · rw [List.mem_singleton.mp hp]
          rcases hj with hj | hj
          · exact ih.lastPhys j hj
          · exact ih.lastMainPhys j hj
      · exact ih.lastPhys
      · exact ih.lastMainPhys
      · intro p hp
        rcases List.mem_append.mp hp with hp | hp
        · exact ih.sensorKeyNotMain p hp
        · rw [List.mem_singleton.mp hp]
          exact hm
      · exact ih.spKeyNotMain
    · rw [attachN, he]
      refine ⟨?_, ?_, ?_, ?_, ?_, ?_⟩
      · rw [List.range_succ]
        exact (perm_snoc_left _ _ n).trans (ih.perm.append_right [n])
      · intro p hp
        exact List.mem_append_left _ (ih.ownerPhys p hp)
      · intro j hj
        cases hj
        exact List.mem_append_right _ (List.mem_singleton_self n)
      · intro m hm'
        exact List.mem_append_left _ (ih.lastMainPhys m hm')
      · exact ih.sensorKeyNotMain
      · intro p hp
        rcases List.mem_append.mp hp with hp | hp
        · exact ih.spKeyNotMain p hp
        · rw [List.mem_singleton.mp hp]
          exact hm

theorem topoInv_attachDevices (recs : List DeviceRec) :
    TopoInv recs recs.length (attachDevices recs) := by
  rw [attachDevices_eq_attachN]
  exact topoInv_attachN recs recs.length

/-! ### Claim C1 -/

/-- Claim C1 (counterexample): a top-level device *can* carry a parent
reference.  On input `[A#1, B#2]` (B#2 neither a main device nor a sensor
of A#1), B#2 is promoted to the physical-device list but the promotion
branch sets `device.parent = lastMainDevice`, i.e. A#1 — so the returned
top-level list contains a device with a parent reference, refuting the
claim as stated. -/
theorem C1_counterexample :
    1 ∈ (attachDevices [⟨"A#1", "", "", ""⟩, ⟨"B#2", "", "", ""⟩]).phys ∧
    parentOf (attachDevices [⟨"A#1", "", "", ""⟩, ⟨"B#2", "", "", ""⟩]) 1 = some 0 := by
  decide

/-- Claim C1 (amended): for every input list, (1) the returned top-level
devices together with all attached sensors cover every input record
exactly once (their indices are a permutation of the input positions);
(2) no record is duplicated at top level; (3) every sensor's owner is a
top-level device and (4) sensors own no sensors of their own, so the
depth-one sensor lists already are the transitive closure; and (5) every
top-level *main* device has no parent reference — but a non-main record
promoted to top level keeps a back-reference to the most recent main
device (see the counterexample), so the claim holds only for main
devices. -/
theorem C1_topology_partition (recs : List DeviceRec) :
    (((attachDevices recs).phys ++
        (attachDevices recs).sensorOwner.map Prod.fst).Perm
      (List.range recs.length)) ∧
    (attachDevices recs).phys.Nodup ∧
    (∀ p ∈ (attachDevices recs).sensorOwner, p.2 ∈ (attachDevices recs).phys) ∧
    (∀ p ∈ (attachDevices recs).sensorOwner, sensorsOf (attachDevices recs) p.1 = []) ∧
    (∀ i ∈ (attachDevices recs).phys,
      isMainDevice (recAt recs i) = true → parentOf (attachDevices recs) i = none) := by
  have inv := topoInv_attachDevices recs
  have hnodup : ((attachDevices recs).phys ++
      (attachDevices recs).sensorOwner.map Prod.fst).Nodup :=
    inv.perm.symm.nodup (List.nodup_range _)
  have hdisj := List.disjoint_of_nodup_append hnodup
  refine ⟨inv.perm, hnodup.of_append_left, inv.ownerPhys, ?_, ?_⟩
  · intro p hp
    have hfil : (attachDevices recs).sensorOwner.filter (fun q => q.2 == p.1) = [] := by
      rw [List.filter_eq_nil_iff]
      intro q hq hbeq
      have hq2 : q.2 ∈ (attachDevices recs).phys := inv.ownerPhys q hq
      have hp1 : p.1 ∈ (attachDevices recs).sensorOwner.map Prod.fst :=
        List.mem_map_of_mem Prod.fst hp
      have heq : q.2 = p.1 := eq_of_beq hbeq
      exact hdisj (heq ▸ hq2) hp1
    unfold sensorsOf
    rw [hfil]
    rfl
  · intro i hi hmain
    have h1 : (attachDevices recs).sensorOwner.find? (fun p => p.1 == i) = none := by
      rw [List.find?_eq_none]
      intro q hq hbeq
      have hnm := inv.sensorKeyNotMain q hq
      rw [eq_of_beq hbeq, hmain] at hnm
      exact Bool.noConfusion hnm
    have h2 : (attachDevices recs).standaloneParent.find? (fun p => p.1 == i) = none := by
      rw [List.find?_eq_none]
      intro q hq hbeq
      have hnm := inv.spKeyNotMain q hq
      rw [eq_of_beq hbeq, hmain] at hnm
      exact Bool.noConfusion hnm
    unfold parentOf
    rw [h1, h2]

/-! ## The execution pool (src/Client.ts, execute / hasExecution)

`executionPool` is declared as a JavaScript `Array` (`Execution[] = []`)
but is always indexed by the server-assigned `execId` string
(`this.executionPool[data.execId] = execution`).  In JavaScript, setting
a string-keyed property on an array updates `length` only when the key
is a canonical numeric index; any other key becomes an ordinary object
property that `length` ignores while `Object.keys` (what `hasExecution`
consults) still sees it.  Both behaviours are modelled explicitly. -/

structure JsArray (α : Type) where
  len : Nat
  props : List (String × α)
deriving DecidableEq, Repr

/-- A string key that is a canonical array index (a decimal numeral
without leading zeros): assigning to such a key updates the array
`length`; any other key does not. -/
def isArrayIndex (k : String) : Bool :=
  !k.toList.isEmpty && k.toList.all Char.isDigit &&
    (k == "0" || k.toList.head? != some '0')

def digitsToNat (k : String) : Nat :=
  k.toList.foldl (fun n c => n * 10 + (c.toNat - 48)) 0

/-- `arr[k] = v` on a JavaScript array, for a string key `k`. -/
def jsSet (a : JsArray α) (k : String) (v : α) : JsArray α :=
  let props :=
    if a.props.any (fun p => p.1 == k) then
      a.props.map (fun p => if p.1 == k then (k, v) else p)
    else a.props ++ [(k, v)]
  if isArrayIndex k then
    { len := max a.len (digitsToNat k + 1), props := props }
  else
    { a with props := props }

/-- `Object.keys(pool).length`: the true number of simultaneously
outstanding executions, which is what `hasExecution()` reports. -/
def jsKeyCount (a : JsArray α) : Nat := a.props.length

/-- One `execute` call whose `POST /exec` the server accepts with id
`execId`: the admission guard compares `executionPool.length` — the
array `length` property — against 10; below the limit the accepted
execution is stored under the string key `execId`, at or above it the
call is postponed for 10 s and retried (modelled as `none`). -/
def executeStep (pool : JsArray Unit) (execId : String) :
    Option (JsArray Unit) :=
  if pool.len ≥ 10 then none
  else some (jsSet pool execId ())

/-- A run of consecutive `execute` calls with the given server-assigned
ids and no intervening terminal events; `some` means every call was
admitted immediately, without ever triggering the 10-s backoff. -/
def execSeq (ids : List String) : Option (JsArray Unit) :=
  ids.foldlM executeStep ⟨0, []⟩

/-- Claim C2 (code bug): eleven consecutive `execute` calls whose
server-assigned execution ids are ordinary non-numeric strings (Overkiz
execution ids are UUID-like) are all admitted immediately — the guard
`executionPool.length >= 10` never fires because string-keyed properties
leave the array `length` at 0 — and afterwards eleven executions are
simultaneously outstanding.  This violates the 10-execution ceiling the
guard is meant to enforce per its own comment ("Avoid EXEC_QUEUE_FULL
(max 10 commands simultaneous)"). -/
theorem C2_pool_guard_broken :
    (execSeq ["a0", "a1", "a2", "a3", "a4", "a5", "a6", "a7", "a8", "a9",
      "a10"]).map jsKeyCount = some 11 ∧
    (execSeq ["a0", "a1", "a2", "a3", "a4", "a5", "a6", "a7", "a8", "a9",
      "a10"]).map JsArray.len = some 0 := by
  decide

/-! ## Authentication lockdown (src/ApiClient.ts, CloudApiClient) -/

inductive AuthOutcome
  | success
  | err4xx
  | errOther
deriving DecidableEq, Repr

inductive AuthResult
  | ok
  | lockedOut
  | raised
deriving DecidableEq, Repr

structure LockState where
  isLockedDown : Bool
  lockdownDelay : Nat
deriving DecidableEq, Repr

/-- The `CloudApiClient` field initialisers: not locked down, delay 60 s. -/
def initLock : LockState := ⟨false, 60⟩

/-- `CloudApiClient.authenticate`: while locked down it throws
immediately and no transport call is made (the `Bool` component records
whether the login transport call was issued); otherwise the login call
is made — a success resets `lockdownDelay` to 60, a failure with HTTP
status in [400, 500) enters lockdown and schedules `fireLockTimer` for
`lockdownDelay` seconds later, any other failure only rethrows. -/
def authAttempt (s : LockState) (o : AuthOutcome) :
    AuthResult × Bool × LockState :=
  if s.isLockedDown then (.lockedOut, false, s)
  else
    match o with
    | .success => (.ok, true, { s with lockdownDelay := 60 })
    | .err4xx => (.raised, true, { s with isLockedDown := true })
    | .errOther => (.raised, true, s)

/-- The `setTimeout` callback scheduled on a 4xx failure, firing
`lockdownDelay` seconds later: it clears the lockdown and doubles the
delay for the next credential failure. -/
def fireLockTimer (s : LockState) : LockState :=
  ⟨false, s.lockdownDelay * 2⟩

/-- One full credential-failure cycle: a 4xx-failing authentication
attempt followed by the expiry of the lockdown it started. -/
def failCycle (s : LockState) : LockState :=
  fireLockTimer (authAttempt s .err4xx).2.2

theorem failCycle_iterate (n : Nat) :
    failCycle^[n] initLock = ⟨false, 60 * 2 ^ n⟩ := by
  induction n with
  | zero => simp [initLock]
  | succ n ih =>
    rw [Function.iterate_succ_apply', ih]
    simp only [failCycle, authAttempt, fireLockTimer, Bool.false_eq_true,
      if_false]
    rw [LockState.mk.injEq]
    exact ⟨rfl, by ring⟩

/-- Claim C3: starting from a fresh client, the N-th consecutive
credential-failure authentication attempt (each made after the previous
lockdown expired) finds `lockdownDelay = 60 * 2 ^ (N - 1)` and enters a
lockdown of exactly that many seconds; an attempt made while locked down
fails immediately as locked-out with no transport call and no state
change; and a successful authentication resets the delay to the initial
60 s. -/
theorem C3_lockdown_backoff (n : Nat) (s : LockState) (hn : 1 ≤ n) :
    ((failCycle^[n - 1] initLock).lockdownDelay = 60 * 2 ^ (n - 1)) ∧
    (authAttempt (failCycle^[n - 1] initLock) .err4xx
      = (.raised, true, ⟨true, 60 * 2 ^ (n - 1)⟩)) ∧
    (s.isLockedDown = true → ∀ o, authAttempt s o = (.lockedOut, false, s)) ∧
    (s.isLockedDown = false →
      (authAttempt s .success).2.2.lockdownDelay = 60) := by
  refine ⟨?_, ?_, ?_, ?_⟩
  · rw [failCycle_iterate]
  · rw [failCycle_iterate]
    simp [authAttempt]
  · intro hl o
    simp [authAttempt, hl]
  · intro hl
    simp [authAttempt, hl]

/-- Witness for C3 at N = 3 (delay 240 s) and a locked-down state. -/
theorem C3_lockdown_backoff_witness :
    ((failCycle^[3 - 1] initLock).lockdownDelay = 60 * 2 ^ (3 - 1)) ∧
    (authAttempt (failCycle^[3 - 1] initLock) .err4xx
      = (.raised, true, ⟨true, 60 * 2 ^ (3 - 1)⟩)) ∧
    ((⟨true, 120⟩ : LockState).isLockedDown = true →
      ∀ o, authAttempt ⟨true, 120⟩ o = (.lockedOut, false, ⟨true, 120⟩)) ∧
    ((⟨true, 120⟩ : LockState).isLockedDown = false →
      (authAttempt ⟨true, 120⟩ .success).2.2.lockdownDelay = 60) :=
  C3_lockdown_backoff 3 ⟨true, 120⟩ (by decide)

/-! ## Execution event correlation (src/models/Execution.ts, onStateUpdate) -/

inductive ExecutionState
  | INITIALIZED
  | NOT_TRANSMITTED
  | TRANSMITTED
  | IN_PROGRESS
  | COMPLETED
  | FAILED
  | TIMED_OUT
deriving DecidableEq, Repr

structure FailedCommand where
  deviceURL : String
  failureType : String
deriving DecidableEq, Repr

structure ExecAction where
  deviceURL : String
deriving DecidableEq, Repr

/-- The event fields `onStateUpdate` reads. -/
structure ExecEvent where
  failureType : Option String
  failedCommands : Option (List FailedCommand)
deriving DecidableEq, Repr

/-- JavaScript truthiness of `event?.failureType && event?.failedCommands`:
the event exists, `failureType` is a present nonempty string, and
`failedCommands` is present (an array is truthy even when empty). -/
def hasPartialFailure (e : Option ExecEvent) : Bool :=
  match e with
  | none => false
  | some ev =>
    (match ev.failureType with
      | none => false
      | some s => s != "") && ev.failedCommands.isSome

inductive ActionUpdate
  | failed (f : FailedCommand)
  | completed
  | state (st : ExecutionState) (e : Option ExecEvent)
deriving DecidableEq, Repr

/-- `Execution.onStateUpdate(state, event)`: the per-action `'update'`
emissions, in action order.  With a truthy `failureType` and a present
`failedCommands`, each action whose `deviceURL` matches a failed command
gets `FAILED` with the (first) matching failure entry and every other
action gets `COMPLETED`; otherwise every action receives the raw batch
state. -/
def onStateUpdate (actions : List ExecAction) (st : ExecutionState)
    (e : Option ExecEvent) : List (ExecAction × ActionUpdate) :=
  if hasPartialFailure e then
    let cmds := (e.bind (·.failedCommands)).getD []
    actions.map fun a =>
      match cmds.find? (fun c => c.deviceURL == a.deviceURL) with
      | some f => (a, .failed f)
      | none => (a, .completed)
  else
    actions.map fun a => (a, .state st e)

/-- Claim C5: for an execution-state-changed event carrying a (truthy)
`failureType` and a `failedCommands` list, every tracked action receives
exactly one individual update — one entry per action; an action whose
`deviceURL` appears in `failedCommands` receives `FAILED` together with
its matching failure detail, every other action in the batch receives
`COMPLETED`, and no action receives a raw batch-level state — the batch
is never reported as a single all-or-nothing failure. -/
theorem C5_partial_failure (actions : List ExecAction) (st : ExecutionState)
    (ev : ExecEvent) (ft : String) (cmds : List FailedCommand)
    (hft : ev.failureType = some ft) (hne : ft ≠ "")
    (hfc : ev.failedCommands = some cmds) :
    ((onStateUpdate actions st (some ev)).length = actions.length) ∧
    (∀ a ∈ actions,
      ((∃ c ∈ cmds, c.deviceURL = a.deviceURL) →
        ∃ f ∈ cmds, f.deviceURL = a.deviceURL ∧
          (a, ActionUpdate.failed f) ∈ onStateUpdate actions st (some ev)) ∧
      ((∀ c ∈ cmds, c.deviceURL ≠ a.deviceURL) →
        (a, ActionUpdate.completed) ∈ onStateUpdate actions st (some ev))) ∧
    (∀ p ∈ onStateUpdate actions st (some ev),
      ∀ st' e', p.2 ≠ ActionUpdate.state st' e') := by
  have htruthy : hasPartialFailure (some ev) = true := by
    simp [hasPartialFailure, hft, hfc, hne]
  have hunfold : onStateUpdate actions st (some ev) =
      actions.map (fun a =>
        match cmds.find? (fun c => c.deviceURL == a.deviceURL) with
        | some f => (a, ActionUpdate.failed f)
        | none => (a, ActionUpdate.completed)) := by
    unfold onStateUpdate
    rw [if_pos htruthy]
    simp [hfc]
  refine ⟨?_, ?_, ?_⟩
  · rw [hunfold, List.length_map]
  · intro a ha
    constructor
    · rintro ⟨c, hc, hcd⟩
      cases hf : cmds.find? (fun c => c.deviceURL == a.deviceURL) with
      | none =>
        rw [List.find?_eq_none] at hf
        exact absurd (beq_iff_eq.mpr hcd) (hf c hc)
      | some f =>
        have hfd := List.find?_some hf
        refine ⟨f, List.mem_of_find?_eq_some hf, eq_of_beq hfd, ?_⟩
        rw [hunfold]
        exact List.mem_map.mpr ⟨a, ha, by simp only [hf]⟩
    · intro hnone
      have hf : cmds.find? (fun c => c.deviceURL == a.deviceURL) = none := by
        rw [List.find?_eq_none]
        intro c hc hbeq
        exact hnone c hc (eq_of_beq hbeq)
      rw [hunfold]
      exact List.mem_map.mpr ⟨a, ha, by simp only [hf]⟩
  · intro p hp st' e'
    rw [hunfold] at hp
    obtain ⟨a, ha, hpa⟩ := List.mem_map.mp hp
    cases hf : cmds.find? (fun c => c.deviceURL == a.deviceURL) with
    | some f =>
      rw [hf] at hpa
      rw [← hpa]
      simp
    | none =>
      rw [hf] at hpa
      rw [← hpa]
      simp

/-- Witness for C5: two actions, the event naming only the first in
`failedCommands` — one FAILED, one COMPLETED, no batch-level state. -/
theorem C5_partial_failure_witness :
    ((onStateUpdate [⟨"d1"⟩, ⟨"d2"⟩] ExecutionState.FAILED
        (some ⟨some "CMDERROR", some [⟨"d1", "CMDERROR"⟩]⟩)).length
      = ([⟨"d1"⟩, ⟨"d2"⟩] : List ExecAction).length) ∧
    (∀ a ∈ ([⟨"d1"⟩, ⟨"d2"⟩] : List ExecAction),
      ((∃ c ∈ ([⟨"d1", "CMDERROR"⟩] : List FailedCommand),
          c.deviceURL = a.deviceURL) →
        ∃ f ∈ ([⟨"d1", "CMDERROR"⟩] : List FailedCommand),
          f.deviceURL = a.deviceURL ∧
          (a, ActionUpdate.failed f) ∈ onStateUpdate [⟨"d1"⟩, ⟨"d2"⟩]
            ExecutionState.FAILED
            (some ⟨some "CMDERROR", some [⟨"d1", "CMDERROR"⟩]⟩)) ∧
      ((∀ c ∈ ([⟨"d1", "CMDERROR"⟩] : List FailedCommand),
          c.deviceURL ≠ a.deviceURL) →
        (a, ActionUpdate.completed) ∈ onStateUpdate [⟨"d1"⟩, ⟨"d2"⟩]
          ExecutionState.FAILED
          (some ⟨some "CMDERROR", some [⟨"d1", "CMDERROR"⟩]⟩))) ∧
    (∀ p ∈ onStateUpdate [⟨"d1"⟩, ⟨"d2"⟩] ExecutionState.FAILED
        (some ⟨some "CMDERROR", some [⟨"d1", "CMDERROR"⟩]⟩),
      ∀ st' e', p.2 ≠ ActionUpdate.state st' e') :=
  C5_partial_failure [⟨"d1"⟩, ⟨"d2"⟩] ExecutionState.FAILED
    ⟨some "CMDERROR", some [⟨"d1", "CMDERROR"⟩]⟩ "CMDERROR"
    [⟨"d1", "CMDERROR"⟩] rfl (by decide) rfl

/-! ## Authenticated-request retry (src/ApiClient.ts, ApiClient.request) -/

inductive ReqOutcome
  | ok
  | err401
  | errOther
deriving DecidableEq, Repr

/-- The session fields `request` reads and writes: whether a
`connectPromise` is installed and whether the session is flagged
authenticated. -/
structure ApiState where
  connected : Bool
  isAuthenticated : Bool
deriving DecidableEq, Repr

/-- `ApiClient.connect()`: reuse the installed `connectPromise` if
present; otherwise start an authentication, whose success handler sets
`isAuthenticated`.  (Authentication succeeds here — the claim concerns
requests failing *after* a successful authentication.) -/
def connectM (s : ApiState) : ApiState :=
  if s.connected then s else ⟨true, true⟩

/-- `ApiClient.request(options, reconnect)` against a script of
transport outcomes for the successive attempts, returning
`(result, transport attempts, disconnect notifications, final state)`.
On a 401 the `connectPromise` is dropped; if the session was flagged
authenticated it is invalidated, `'disconnect'` is emitted and — while
`reconnect` is still allowed — the same request is retried exactly once
with `reconnect = false`; otherwise the error message is thrown. -/
def runRequest (s : ApiState) (reconnect : Bool) :
    List ReqOutcome → Except String Unit × Nat × Nat × ApiState
  | [] => (.error "no transport outcome scripted", 0, 0, s)
  | o :: rest =>
    let s1 := connectM s
    match o with
    | .ok => (.ok (), 1, 0, s1)
    | .errOther => (.error "transport error", 1, 0, s1)
    | .err401 =>
      if s1.isAuthenticated then
        if reconnect then
          let r := runRequest ⟨false, false⟩ false rest
          (r.1, r.2.1 + 1, r.2.2.1 + 1, r.2.2.2)
        else (.error "Error 401", 1, 1, ⟨false, false⟩)
      else (.error "Error 401", 1, 0, ⟨false, s1.isAuthenticated⟩)

/-- Claim C6: a request issued through an authenticated session that
receives a 401 performs exactly one transparent
re-authentication-and-retry (two transport attempts in total, never a
third); if the retry succeeds the caller sees the success, and if the
retried request fails with the same 401 class the error is surfaced to
the caller and a `'disconnect'` notification has been emitted (one per
401, two in total). -/
theorem C6_reauth_retry_once (s : ApiState) (o2 : ReqOutcome)
    (hc : s.connected = true) (ha : s.isAuthenticated = true) :
    ((runRequest s true [.err401, o2]).2.1 = 2) ∧
    (o2 = .ok → (runRequest s true [.err401, o2]).1 = .ok ()) ∧
    (o2 = .err401 →
      (runRequest s true [.err401, o2]).1 = .error "Error 401" ∧
      (runRequest s true [.err401, o2]).2.2.1 = 2) := by
  have hs : s = ⟨true, true⟩ := by
    obtain ⟨c, a⟩ := s
    dsimp only at hc ha
    rw [hc, ha]
  subst hs
  cases o2 with
  | ok =>
    refine ⟨by decide, fun _ => rfl, ?_⟩
    intro h
    cases h
  | err401 =>
    refine ⟨by decide, ?_, ?_⟩
    · intro h
      cases h
    · intro h
      exact ⟨rfl, by decide⟩
  | errOther =>
    refine ⟨by decide, ?_, ?_⟩
    · intro h
      cases h
    · intro h
      cases h

/-- Witness for C6: an authenticated session whose request and retry
both 401. -/
theorem C6_reauth_retry_once_witness :
    ((runRequest ⟨true, true⟩ true [.err401, .err401]).2.1 = 2) ∧
    (ReqOutcome.err401 = .ok →
      (runRequest ⟨true, true⟩ true [.err401, .err401]).1 = .ok ()) ∧
    (ReqOutcome.err401 = .err401 →
      (runRequest ⟨true, true⟩ true [.err401, .err401]).1 = .error "Error 401" ∧
      (runRequest ⟨true, true⟩ true [.err401, .err401]).2.2.1 = 2) :=
  C6_reauth_retry_once ⟨true, true⟩ .err401 rfl rfl

/-! ## The execution fallback timer (src/Client.ts, EXEC_TIMEOUT) -/

/-- `const EXEC_TIMEOUT = 2 * 60 * 1000` (milliseconds). -/
def EXEC_TIMEOUT : Nat := 2 * 60 * 1000

/-- The timed occurrences affecting one tracked execution: an
`ExecutionStateChangedEvent` bearing its execId (routed by
`fetchEvents`), or the firing of the fallback `setTimeout` registered by
`execute` at acceptance. -/
inductive PoolOcc
  | stateEvent (newState : ExecutionState) (timeToNextState : Int) (time : Nat)
  | timerFire (time : Nat)
deriving DecidableEq, Repr

/-- Whether the execution is still in `executionPool`, and the
`onStateUpdate` transitions it has received, each with its time. -/
structure ExecTrack where
  inPool : Bool
  updates : List (ExecutionState × Nat)
deriving DecidableEq, Repr

/-- One occurrence:

* an event for this execId (`fetchEvents`): if the execution is still
  pooled, `onStateUpdate(newState, event)` runs, and
  `timeToNextState === -1` deletes the pool entry;
* the fallback timer callback: if the execution is still pooled it is
  transitioned to `TIMED_OUT` and deleted, otherwise nothing happens. -/
def execStep (s : ExecTrack) (o : PoolOcc) : ExecTrack :=
  match o with
  | .stateEvent ns ttns t =>
    if s.inPool then
      { inPool := !(ttns == -1), updates := s.updates ++ [(ns, t)] }
    else s
  | .timerFire t =>
    if s.inPool then
      { inPool := false, updates := s.updates ++ [(.TIMED_OUT, t)] }
    else s

/-- One tracked execution from acceptance onwards, processing its
occurrences in chronological order. -/
def runExec (occs : List PoolOcc) : ExecTrack :=
  occs.foldl execStep ⟨true, []⟩

theorem execStep_not_inPool (s : ExecTrack) (o : PoolOcc)
    (h : s.inPool = false) : execStep s o = s := by
  cases o <;> simp [execStep, h]

theorem foldl_execStep_not_inPool (s : ExecTrack) (occs : List PoolOcc)
    (h : s.inPool = false) : occs.foldl execStep s = s := by
  induction occs with
  | nil => rfl
  | cons o rest ih => rw [List.foldl_cons, execStep_not_inPool s o h]; exact ih

theorem foldl_execStep_terminal (occs : List PoolOcc) :
    ∀ s : ExecTrack, (∃ ns t, PoolOcc.stateEvent ns (-1) t ∈ occs) →
      (occs.foldl execStep s).inPool = false := by
  induction occs with
  | nil =>
    intro s h
    obtain ⟨ns, t, hmem⟩ := h
    simp at hmem
  | cons o rest ih =>
    intro s h
    obtain ⟨ns, t, hmem⟩ := h
    rw [List.foldl_cons]
    cases hin : (execStep s o).inPool with
    | false =>
      rw [foldl_execStep_not_inPool _ _ hin]
      exact hin
    | true =>
      rcases List.mem_cons.mp hmem with heq | hmem'
      · exfalso
        subst heq
        cases hs : s.inPool with
        | true => simp [execStep, hs] at hin
        | false => simp [execStep, hs] at hin
      · exact ih _ ⟨ns, t, hmem'⟩

theorem foldl_execStep_all_nonterminal (occs : List PoolOcc) :
    ∀ s : ExecTrack, s.inPool = true →
      (∀ t, PoolOcc.timerFire t ∉ occs) →
      (∀ ns ttns t, PoolOcc.stateEvent ns ttns t ∈ occs → ttns ≠ -1) →
      (occs.foldl execStep s).inPool = true ∧
      (occs.foldl execStep s).updates
        = s.updates ++ occs.map (fun o => match o with
            | .stateEvent ns _ t => (ns, t)
            | .timerFire t => (ExecutionState.TIMED_OUT, t)) := by
  induction occs with
  | nil =>
    intro s hs _ _
    exact ⟨hs, by simp⟩
  | cons o rest ih =>
    intro s hs hext hterm
    cases o with
    | timerFire t => exact absurd (List.mem_cons_self _ _) (hext t)
    | stateEvent ns ttns t =>
      have hne : ttns ≠ -1 := hterm ns ttns t (List.mem_cons_self _ _)
      have hstep : execStep s (.stateEvent ns ttns t)
          = ⟨!(ttns == -1), s.updates ++ [(ns, t)]⟩ := by
        simp [execStep, hs]
      have hpool : (!(ttns == -1)) = true := by
        simp [hne]
      rw [List.foldl_cons, hstep]
      obtain ⟨h1, h2⟩ := ih ⟨!(ttns == -1), s.updates ++ [(ns, t)]⟩ hpool
        (fun t' ht' => hext t' (List.mem_cons_of_mem _ ht'))
        (fun ns' ttns' t' h' => hterm ns' ttns' t' (List.mem_cons_of_mem _ h'))
      refine ⟨h1, ?_⟩
      rw [h2]
      simp

/-- Claim C7: an execution accepted at time `t0` whose event stream
never delivers a terminal (`timeToNextState === -1`) notification is
transitioned to `TIMED_OUT` and removed from the pool by the fallback
timer at exactly `t0 + EXEC_TIMEOUT` (2 minutes after acceptance) and at
no other time — every `TIMED_OUT` transition in the run carries exactly
that timestamp; and for any execution that did receive a terminal event
before the timer expires, the expiring timer changes nothing. -/
theorem C7_exec_timeout (t0 : Nat) (evs : List PoolOcc)
    (hext : ∀ t, PoolOcc.timerFire t ∉ evs)
    (hterm : ∀ ns ttns t, PoolOcc.stateEvent ns ttns t ∈ evs → ttns ≠ -1)
    (hnt : ∀ ns ttns t, PoolOcc.stateEvent ns ttns t ∈ evs →
      ns ≠ ExecutionState.TIMED_OUT) :
    ((runExec (evs ++ [.timerFire (t0 + EXEC_TIMEOUT)])).inPool = false) ∧
    ((runExec (evs ++ [.timerFire (t0 + EXEC_TIMEOUT)])).updates
      = (runExec evs).updates
          ++ [(ExecutionState.TIMED_OUT, t0 + EXEC_TIMEOUT)]) ∧
    (∀ p ∈ (runExec (evs ++ [.timerFire (t0 + EXEC_TIMEOUT)])).updates,
      p.1 = ExecutionState.TIMED_OUT → p.2 = t0 + EXEC_TIMEOUT) ∧
    (∀ evs' : List PoolOcc, (∃ ns t, PoolOcc.stateEvent ns (-1) t ∈ evs') →
      runExec (evs' ++ [.timerFire (t0 + EXEC_TIMEOUT)]) = runExec evs') := by
  obtain ⟨hpool0, hupd0⟩ :=
    foldl_execStep_all_nonterminal evs ⟨true, []⟩ rfl hext hterm
  have hpool : (runExec evs).inPool = true := hpool0
  have hupd : (runExec evs).updates
      = evs.map (fun o => match o with
          | .stateEvent ns _ t => (ns, t)
          | .timerFire t => (ExecutionState.TIMED_OUT, t)) := by
    simpa using hupd0
  have happend : runExec (evs ++ [.timerFire (t0 + EXEC_TIMEOUT)])
      = execStep (runExec evs) (.timerFire (t0 + EXEC_TIMEOUT)) := by
    unfold runExec
    rw [List.foldl_append]
    rfl
  have hstep : execStep (runExec evs) (.timerFire (t0 + EXEC_TIMEOUT))
      = ⟨false, (runExec evs).updates
          ++ [(ExecutionState.TIMED_OUT, t0 + EXEC_TIMEOUT)]⟩ := by
    simp [execStep, hpool]
  refine ⟨?_, ?_, ?_, ?_⟩
  · rw [happend, hstep]
  · rw [happend, hstep]
  · intro p hp hto
    rw [happend, hstep] at hp
    rcases List.mem_append.mp hp with hp | hp
    · exfalso
      rw [hupd] at hp
      obtain ⟨o, ho, hpo⟩ := List.mem_map.mp hp
      cases o with
      | stateEvent ns ttns t =>
        have := hnt ns ttns t ho
        rw [← hpo] at hto
        exact this hto
      | timerFire t => exact hext t ho
    · rw [List.mem_singleton.mp hp]
  · intro evs' hterm'
    have hout : (runExec evs').inPool = false :=
      foldl_execStep_terminal evs' ⟨true, []⟩ hterm'
    unfold runExec
    rw [List.foldl_append, List.foldl_cons, List.foldl_nil]
    exact execStep_not_inPool _ _ hout

/-- Witness for C7: one non-terminal progress event at 100 ms, then the
timer at `EXEC_TIMEOUT` for an acceptance at time 0. -/
theorem C7_exec_timeout_witness :
    ((runExec ([.stateEvent .IN_PROGRESS 5 100]
        ++ [.timerFire (0 + EXEC_TIMEOUT)])).inPool = false) ∧
    ((runExec ([.stateEvent .IN_PROGRESS 5 100]
        ++ [.timerFire (0 + EXEC_TIMEOUT)])).updates
      = (runExec [.stateEvent .IN_PROGRESS 5 100]).updates
          ++ [(ExecutionState.TIMED_OUT, 0 + EXEC_TIMEOUT)]) ∧
    (∀ p ∈ (runExec ([.stateEvent .IN_PROGRESS 5 100]
        ++ [.timerFire (0 + EXEC_TIMEOUT)])).updates,
      p.1 = ExecutionState.TIMED_OUT → p.2 = 0 + EXEC_TIMEOUT) ∧
    (∀ evs' : List PoolOcc, (∃ ns t, PoolOcc.stateEvent ns (-1) t ∈ evs') →
      runExec (evs' ++ [.timerFire (0 + EXEC_TIMEOUT)]) = runExec evs') :=
  C7_exec_timeout 0 [.stateEvent .IN_PROGRESS 5 100]
    (by
      intro t h
      rw [List.mem_singleton] at h
      cases h)
    (by
      intro ns ttns t h
      rw [List.mem_singleton] at h
      cases h
      decide)
    (by
      intro ns ttns t h
      rw [List.mem_singleton] at h
      cases h
      decide)

/-! ## Event-fetch error handling (src/Client.ts, fetchEvents) -/

/-- Whether `pat` starts the list `cs`. -/
def startsWithCL : List Char → List Char → Bool
  | [], _ => true
  | _ :: _, [] => false
  | a :: as, b :: bs => a == b && startsWithCL as bs

/-- Whether `pat` occurs contiguously inside the list. -/
def containsCL (pat : List Char) : List Char → Bool
  | [] => startsWithCL pat []
  | c :: rest => startsWithCL pat (c :: rest) || containsCL pat rest

/-- `String.prototype.includes`. -/
def strContains (s pat : String) : Bool :=
  containsCL pat.toList s.toList

/-- The error classification of the `fetchEvents` catch block:
`error.includes('400') || error.includes('401')` — the listener is not
registered (400) or the session is disconnected (401). -/
def isListenerGoneError (err : String) : Bool :=
  strContains err "400" || strContains err "401"

structure FetchCycleResult where
  listenerId : Option String
  delayMs : Nat
  registerAttempted : Bool
deriving DecidableEq, Repr

/-- One `fetchEvents` invocation whose fetch attempt (made because a
listener id was present) failed with message `err`, followed by the
trailing `listenerId === null` re-registration check of the same
function.  `regOutcome` is the id delivered by `POST /events/register`
when registration is attempted (`none` = registration failed, which adds
its own 10 s delay).  The result records the listener id afterwards, the
total backoff delay awaited, and whether a registration call was
issued. -/
def fetchEventsErrorCycle (lid err : String) (regOutcome : Option String) :
    FetchCycleResult :=
  let lid1 : Option String :=
    if isListenerGoneError err then none else some lid
  let delay1 : Nat := if isListenerGoneError err then 0 else 10 * 1000
  match lid1 with
  | none =>
    match regOutcome with
    | some newId => ⟨some newId, delay1, true⟩
    | none => ⟨none, delay1 + 10 * 1000, true⟩
  | some l => ⟨some l, delay1, false⟩

/-- Claim C9: when the fetch error message names a 400 (listener
unknown) or 401 (session expired) condition, the listener handle is
discarded and re-registration is attempted — within the same invocation,
so by the next cycle a fresh handle is in place — with no retry delay;
for any other error a fixed 10-second delay is applied and the handle is
kept unchanged, with no re-registration. -/
theorem C9_fetch_error_handling (lid err nid : String) :
    (isListenerGoneError err = true →
      fetchEventsErrorCycle lid err (some nid) = ⟨some nid, 0, true⟩) ∧
    (isListenerGoneError err = false →
      fetchEventsErrorCycle lid err (some nid)
        = ⟨some lid, 10 * 1000, false⟩) := by
  constructor <;> intro h <;> simp [fetchEventsErrorCycle, h]

/-- Witness for C9: a 401 polling error (handle discarded, fresh
registration, no delay) and a network error (handle kept, 10 s delay). -/
theorem C9_fetch_error_handling_witness :
    fetchEventsErrorCycle "77#1" "Error 401 Unauthorized" (some "88#1")
      = ⟨some "88#1", 0, true⟩ ∧
    fetchEventsErrorCycle "77#1" "read ECONNRESET" (some "88#1")
      = ⟨some "77#1", 10 * 1000, false⟩ :=
  ⟨(C9_fetch_error_handling "77#1" "Error 401 Unauthorized" "88#1").1 (by decide),
   (C9_fetch_error_handling "77#1" "read ECONNRESET" "88#1").2 (by decide)⟩

end Overkiz
